import Mathlib

/-!
Verification development for the Nasdaq-100 Streamlit RAG front end
(`NAsdaq100StreamlitRag.py`).

The pipeline under study is: embed the user query (`get_query_embedding`),
search a Supabase vector store (`find_similar_chunks`), and generate a
grounded answer with source citations (`get_llm_answer`), orchestrated by
the module-level chat-input handler.

Modelling choices for the shallow embedding:
* Python/JSON values reaching the pipeline (Supabase rows and their
  `metadata` JSONB column) are modelled by the inductive type `PyVal`
  (strings, integers, booleans, `None`, and string-keyed dictionaries).
* The three network clients (OpenAI embeddings, Supabase RPC, OpenAI chat
  completions) are oracles passed as function arguments; a returned
  `Option.none` models the client raising an exception, which the Python
  code catches with broad `except Exception` blocks.
* Python exceptions that the source does NOT catch (the `chunk['content']`
  subscript in `get_llm_answer`) are modelled with `Except PyErr`.
* Numeric literals (`0.4` threshold, `0.0` temperature) are modelled as
  exact rationals; the code never computes with them, it only forwards
  them to the clients.
* Python truthiness (`if query_embedding:`, `if metadata and ...:`,
  `if context_text ...`, `if sources:`) is modelled by `pyTruthy` /
  explicit emptiness checks on the corresponding type.
-/

/-- Python/JSON values as they occur in Supabase result rows: strings,
integers, booleans, `None`, and string-keyed dictionaries. -/
inductive PyVal where
  | str (s : String)
  | int (n : Int)
  | bool (b : Bool)
  | none
  | dict (entries : List (String × PyVal))

/-- Association-list lookup, modelling Python dictionary key lookup. -/
def lookupEntries : List (String × PyVal) → String → Option PyVal
  | [], _ => Option.none
  | (k, v) :: rest, key => if k = key then Option.some v else lookupEntries rest key

/-- Whether a `PyVal` is a dictionary (a Python mapping). -/
def PyVal.isDict : PyVal → Bool
  | .dict _ => true
  | _ => false

/-- Python truthiness of a value (`bool(v)`): empty strings, zero, `False`,
`None` and empty dicts are falsy. -/
def pyTruthy : PyVal → Bool
  | .str s => !s.isEmpty
  | .int n => n != 0
  | .bool b => b
  | .none => false
  | .dict es => !es.isEmpty

mutual

/-- Python `repr` of a value, used when a non-string value is interpolated
inside a container rendering. Only `PyVal.str` values ever reach string
interpolation in the claims below; the dict case is a best-effort
rendering of CPython output. -/
def pyRepr : PyVal → String
  | .str s => "\x27" ++ s ++ "\x27"
  | .int n => toString n
  | .bool b => if b then ("True") else ("False")
  | .none => "None"
  | .dict es => "\x7b" ++ pyReprEntries es ++ "\x7d"

/-- Renders the entries of a dictionary for `pyRepr`. -/
def pyReprEntries : List (String × PyVal) → String
  | [] => ""
  | [(k, v)] => "\x27" ++ k ++ "\x27: " ++ pyRepr v
  | (k, v) :: rest => "\x27" ++ k ++ "\x27: " ++ pyRepr v ++ ", " ++ pyReprEntries rest

end

/-- Python `str(v)`, as used by f-string interpolation (`f"{chunk['content']}"`,
`f"{ticker} ({company})"`). -/
def pyStr : PyVal → String
  | .str s => s
  | .int n => toString n
  | .bool b => if b then ("True") else ("False")
  | .none => "None"
  | .dict es => "\x7b" ++ pyReprEntries es ++ "\x7d"

/-- Python exceptions left uncaught by the code under study. -/
inductive PyErr where
  | typeError
  | keyError (key : String)
  | attributeError

/-- Python subscript `v[key]`: raises `TypeError` when `v` is not a mapping
and `KeyError` when the key is absent. -/
def pySubscript (v : PyVal) (key : String) : Except PyErr PyVal :=
  match v with
  | .dict es =>
    match lookupEntries es key with
    | Option.some x => Except.ok x
    | Option.none => Except.error (PyErr.keyError key)
  | _ => Except.error PyErr.typeError

/-- Python `v.get(key, dflt)`: raises `AttributeError` when `v` is not a
mapping (non-dict values have no `get` method), otherwise never raises. -/
def pyGet (v : PyVal) (key : String) (dflt : PyVal) : Except PyErr PyVal :=
  match v with
  | .dict es =>
    match lookupEntries es key with
    | Option.some x => Except.ok x
    | Option.none => Except.ok dflt
  | _ => Except.error PyErr.attributeError

/-- The embedding model name (`EMBEDDING_MODEL` in the source). -/
def EMBEDDING_MODEL : String := "text-embedding-3-small"

/-- The chat model name (`LLM_MODEL` in the source). -/
def LLM_MODEL : String := "gpt-4o-mini"

/-- `get_query_embedding` (source lines 61-71): calls the embedding client
and returns `response.data[0].embedding`; any exception inside the `try`
block — including the provider raising, modelled by the oracle returning
`Option.none`, and an `IndexError` on an empty `data` list — is caught and
turned into a `None` result. The oracle returns the `data` list of
embedding vectors on success. -/
def get_query_embedding (embedder : String → Option (List (List Rat)))
    (query_text : String) : Option (List Rat) :=
  match embedder query_text with
  | Option.some (v :: _) => Option.some v
  | Option.some [] => Option.none
  | Option.none => Option.none

/-- The argument record of the `match_nasdaq_chunks` Supabase RPC. -/
structure RpcParams where
  query_embedding : List Rat
  match_threshold : Rat
  match_count : Nat

/-- `find_similar_chunks` (source lines 73-89): one RPC to
`match_nasdaq_chunks` with `match_threshold = 0.4` and `match_count = 5`;
the response rows are returned as-is, and any exception (oracle
`Option.none`) is caught and replaced by the empty list. -/
def find_similar_chunks (store : RpcParams → Option (List PyVal))
    (embedding : List Rat) : List PyVal :=
  match store ⟨embedding, 0.4, 5⟩ with
  | Option.some data => data
  | Option.none => []

/-- One message of the chat-completions request. -/
structure ChatMessage where
  role : String
  content : String

/-- The chat-completions request issued by `get_llm_answer`. -/
structure ChatRequest where
  model : String
  messages : List ChatMessage
  temperature : Rat

/-- The metadata-to-source-label step inside the per-chunk `try` block of
`get_llm_answer` (source lines 106-113), before the `except` is applied:
`metadata = chunk.get('metadata', {})`, then, when `metadata` and
`metadata.get('Ticker')` are truthy, the label
`f"{metadata.get('Ticker', 'N/A')} ({metadata.get('Company', 'N/A')})"`. -/
def trySource (chunk : PyVal) : Except PyErr (Option String) :=
  match pyGet chunk ("metadata") (PyVal.dict []) with
  | Except.error e => Except.error e
  | Except.ok metadata =>
    if pyTruthy metadata then
      match pyGet metadata ("Ticker") PyVal.none with
      | Except.error e => Except.error e
      | Except.ok tickerProbe =>
        if pyTruthy tickerProbe then
          match pyGet metadata ("Ticker") (PyVal.str ("N/A")),
              pyGet metadata ("Company") (PyVal.str ("N/A")) with
          | Except.ok tickerVal, Except.ok companyVal =>
            Except.ok (Option.some (pyStr tickerVal ++ " (" ++ pyStr companyVal ++ ")"))
          | Except.error e, _ => Except.error e
          | _, Except.error e => Except.error e
        else Except.ok Option.none
    else Except.ok Option.none

/-- The per-chunk source extraction of `get_llm_answer` with its
`except Exception` applied: a caught exception is logged and the chunk
simply contributes no label. -/
def extractSource (chunk : PyVal) : Option String :=
  match trySource chunk with
  | Except.ok o => o
  | Except.error _ => Option.none

/-- The accumulation loop of `get_llm_answer` (source lines 101-113):
for each chunk, append `f"\n---\n{chunk['content']}\n---\n"` to the
context (the subscript is OUTSIDE any `try`, so its exception propagates)
and collect the chunk's source label, if any. -/
def assembleChunks : List PyVal → Except PyErr (String × List String)
  | [] => Except.ok ("", [])
  | chunk :: rest =>
    match pySubscript chunk ("content") with
    | Except.error e => Except.error e
    | Except.ok contentVal =>
      match assembleChunks rest with
      | Except.error e => Except.error e
      | Except.ok (ctxRest, srcRest) =>
        Except.ok ("\n---\n" ++ pyStr contentVal ++ "\n---\n" ++ ctxRest,
          (extractSource chunk).toList ++ srcRest)

/-- The context-formatting step of `get_llm_answer` (source lines 97-113),
including the `if context_chunks:` guard (an empty or falsy list skips the
loop, leaving `context_text = ""` and `sources = []`). -/
def assemble (context_chunks : List PyVal) : Except PyErr (String × List String) :=
  if context_chunks.isEmpty then Except.ok ("", [])
  else assembleChunks context_chunks

/-- The `system_prompt` f-string of `get_llm_answer` (source lines 116-124):
grounding instruction plus the context, with the placeholder
`"Kein Kontext gefunden."` substituted when `context_text` is falsy. -/
def systemPrompt (context_text : String) : String :=
  "\n    Du bist ein Assistent für Finanzanalysen, spezialisiert auf den Nasdaq-100.\n    Antworte auf die Frage des Benutzers basierend *ausschließlich* auf dem folgenden Kontext.\n    Wenn der Kontext die Antwort nicht enthält, sage: \"Ich habe dazu keine Informationen in meiner Datenbank.\"\n    Sei präzise und zitiere Fakten, wenn möglich.\n\n    Kontext:\n    "
    ++ (if context_text.isEmpty then ("Kein Kontext gefunden.") else context_text)
    ++ "\n    "

/-- The chat-completions request built by `get_llm_answer` (source lines
128-135): the configured model, a system message with the grounding
prompt, a user message with the raw query, and `temperature = 0.0`. -/
def llmRequest (query : String) (context_text : String) : ChatRequest :=
  ⟨LLM_MODEL, [⟨"system", systemPrompt context_text⟩, ⟨"user", query⟩], 0⟩

/-- Code-point comparison of character lists, modelling Python's
lexicographic string `<` used by `sorted`. -/
def pyStrLtAux : List Char → List Char → Bool
  | _, [] => false
  | [], _ :: _ => true
  | a :: as, b :: bs => if a < b then true else if b < a then false else pyStrLtAux as bs

/-- Python string `<=` (code-point lexicographic). -/
def pyStrLe (a b : String) : Bool := !pyStrLtAux b.toList a.toList

/-- Insertion of a string into a sorted list, w.r.t. Python string order. -/
def orderedInsertPy (a : String) : List String → List String
  | [] => [a]
  | b :: l => if pyStrLe a b then a :: b :: l else b :: orderedInsertPy a l

/-- Python `sorted` on a list of strings (insertion sort; `sorted` is
stable and total, so any correct sort models it). -/
def sortedStrings : List String → List String
  | [] => []
  | a :: l => orderedInsertPy a (sortedStrings l)

/-- `sorted(list(set(sources)))` from `get_llm_answer` (source line 141):
the distinct labels in lexicographic order. -/
def unique_sources (sources : List String) : List String :=
  sortedStrings sources.dedup

/-- `get_llm_answer` (source lines 91-148): assemble the context (whose
`chunk['content']` subscript may raise, propagating out of the function),
call the chat model at temperature 0, and on success append the
deduplicated sorted source list when any label was collected; a model
exception (oracle `Option.none`) is caught and replaced by a fixed
user-facing error string. -/
def get_llm_answer (llm : ChatRequest → Option String) (query : String)
    (context_chunks : List PyVal) : Except PyErr String :=
  match assemble context_chunks with
  | Except.error e => Except.error e
  | Except.ok (context_text, sources) =>
    match llm (llmRequest query context_text) with
    | Option.some answer =>
      if sources.isEmpty then Except.ok answer
      else Except.ok (answer ++ "\n\n**Quellen:**\n- "
        ++ String.intercalate ("\n- ") (unique_sources sources))
    | Option.none => Except.ok ("Es gab einen Fehler bei der Generierung der Antwort.")

/-- The three process-wide client handles, as oracles. -/
structure Env where
  embedder : String → Option (List (List Rat))
  store : RpcParams → Option (List PyVal)
  llm : ChatRequest → Option String

/-- A recorded invocation of one of the two downstream pipeline stages. -/
inductive PipelineCall where
  | searchCall (embedding : List Rat)
  | generateCall (query : String) (chunks : List PyVal)

/-- The module-level chat-input handler (source lines 178-187): embed the
query; when the embedding is truthy (a non-`None`, non-empty list), run
retrieval then generation, otherwise short-circuit to the fixed failure
answer. The second component records which downstream stages were invoked
and with which arguments. -/
def handleQuery (env : Env) (query : String) : Except PyErr String × List PipelineCall :=
  match get_query_embedding env.embedder query with
  | Option.some query_embedding =>
    if query_embedding.isEmpty then
      (Except.ok ("Fehler: Konnte die Anfrage nicht verarbeiten."), [])
    else
      let relevant_chunks := find_similar_chunks env.store query_embedding
      (get_llm_answer env.llm query relevant_chunks,
        [PipelineCall.searchCall query_embedding,
          PipelineCall.generateCall query relevant_chunks])
  | Option.none => (Except.ok ("Fehler: Konnte die Anfrage nicht verarbeiten."), [])

/-- Specification helper: the content of a chunk rendered as the loop
renders it (empty for a chunk whose subscript would raise; such chunks
only appear under hypotheses excluding them). -/
def chunkContent (c : PyVal) : String :=
  match pySubscript c ("content") with
  | Except.ok v => pyStr v
  | Except.error _ => ""

/-- Specification helper: the context fragment contributed by one chunk —
its content wrapped with a delimiter line before and after. -/
def contextPiece (c : PyVal) : String :=
  "\n---\n" ++ chunkContent c ++ "\n---\n"

/-- Specification helper: concatenation of the context fragments of a
chunk list, in input order. -/
def ctxOf : List PyVal → String
  | [] => ""
  | c :: rest => contextPiece c ++ ctxOf rest

/-- Specification helper: the source labels contributed by a chunk list,
in input order. -/
def srcsOf : List PyVal → List String
  | [] => []
  | c :: rest => (extractSource c).toList ++ srcsOf rest

/-- Specification helper: whether the `chunk['content']` subscript
succeeds on this chunk. -/
def hasContent (c : PyVal) : Bool :=
  match pySubscript c ("content") with
  | Except.ok _ => true
  | Except.error _ => false

/-- The computable code-point comparison agrees with the lexicographic
order on character lists. -/
theorem pyStrLtAux_iff : ∀ as bs : List Char, pyStrLtAux as bs = true ↔ as < bs
  | [], [] => by
    constructor
    · intro h; exact absurd h (by decide)
    · intro h; cases h
  | [], _ :: _ => Iff.intro (fun _ => List.Lex.nil) (fun _ => rfl)
  | a :: as, [] => by
    constructor
    · intro h; exact absurd h (by simp [pyStrLtAux])
    · intro h; cases h
  | a :: as, b :: bs => by
    simp only [pyStrLtAux]
    by_cases hab : a < b
    · rw [if_pos hab]
      exact Iff.intro (fun _ => List.Lex.rel hab) (fun _ => rfl)
    · by_cases hba : b < a
      · rw [if_neg hab, if_pos hba]
        constructor
        · intro h; exact absurd h (by decide)
        · intro h
          cases h with
          | cons h2 => exact absurd hba (lt_irrefl a)
          | rel h2 => exact absurd h2 hab
      · have heq : a = b := le_antisymm (le_of_not_lt hba) (le_of_not_lt hab)
        subst heq
        rw [if_neg hab, if_neg hba, pyStrLtAux_iff as bs]
        constructor
        · intro h; exact List.Lex.cons h
        · intro h
          cases h with
          | cons h2 => exact h2
          | rel h2 => exact absurd h2 (lt_irrefl a)

/-- The computable string comparison agrees with the lexicographic string
order. -/
theorem pyStrLe_iff (a b : String) : pyStrLe a b = true ↔ a ≤ b := by
  unfold pyStrLe
  rw [Bool.not_eq_true']
  rw [show (pyStrLtAux b.toList a.toList = false) ↔ ¬(pyStrLtAux b.toList a.toList = true)
    from by simp]
  rw [pyStrLtAux_iff, ← String.lt_iff_toList_lt]
  exact not_lt

/-- The Python-order insertion agrees with Mathlib's `orderedInsert`. -/
theorem orderedInsertPy_eq (a : String) : ∀ l : List String,
    orderedInsertPy a l = List.orderedInsert (· ≤ ·) a l
  | [] => rfl
  | b :: l => by
    simp only [orderedInsertPy, List.orderedInsert]
    by_cases h : a ≤ b
    · rw [if_pos ((pyStrLe_iff a b).mpr h), if_pos h]
    · rw [if_neg (fun hc => h ((pyStrLe_iff a b).mp hc)), if_neg h, orderedInsertPy_eq a l]

/-- The Python sort agrees with Mathlib's insertion sort. -/
theorem sortedStrings_eq : ∀ l : List String,
    sortedStrings l = List.insertionSort (· ≤ ·) l
  | [] => rfl
  | a :: l => by
    simp only [sortedStrings, List.insertionSort]
    rw [sortedStrings_eq l, orderedInsertPy_eq]

/-- `unique_sources` is sorted. -/
theorem unique_sources_sorted (l : List String) :
    (unique_sources l).Sorted (· ≤ ·) := by
  rw [unique_sources, sortedStrings_eq]
  exact List.sorted_insertionSort _ _

/-- `unique_sources` has no duplicates. -/
theorem unique_sources_nodup (l : List String) : (unique_sources l).Nodup := by
  rw [unique_sources, sortedStrings_eq]
  exact ((List.perm_insertionSort _ _).nodup_iff).mpr (List.nodup_dedup l)

/-- `unique_sources` has exactly the members of its input. -/
theorem unique_sources_mem (l : List String) (s : String) :
    s ∈ unique_sources l ↔ s ∈ l := by
  rw [unique_sources, sortedStrings_eq]
  rw [(List.perm_insertionSort _ _).mem_iff]
  exact List.mem_dedup

/-- When every chunk has a `content` entry, the assembly loop succeeds and
produces exactly the concatenated wrapped contents and the per-chunk
source labels, in input order. -/
theorem assembleChunks_eq : ∀ chunks : List PyVal,
    (∀ c ∈ chunks, hasContent c = true) →
    assembleChunks chunks = Except.ok (ctxOf chunks, srcsOf chunks)
  | [], _ => rfl
  | c :: rest, h => by
    have hc : hasContent c = true := h c (List.mem_cons_self c rest)
    have ih : assembleChunks rest = Except.ok (ctxOf rest, srcsOf rest) :=
      assembleChunks_eq rest (fun x hx => h x (List.mem_cons_of_mem c hx))
    unfold hasContent at hc
    cases hsub : pySubscript c ("content") with
    | error e => rw [hsub] at hc; exact absurd hc (by simp)
    | ok v =>
      show assembleChunks (c :: rest) = _
      unfold assembleChunks
      rw [hsub, ih]
      simp only [ctxOf, srcsOf, contextPiece, chunkContent, hsub, String.append_assoc]

/-- Same as `assembleChunks_eq`, through the `if context_chunks:` guard. -/
theorem assemble_eq (chunks : List PyVal)
    (h : ∀ c ∈ chunks, hasContent c = true) :
    assemble chunks = Except.ok (ctxOf chunks, srcsOf chunks) := by
  cases chunks with
  | nil => rfl
  | cons c rest =>
    unfold assemble
    rw [if_neg (by simp)]
    exact assembleChunks_eq (c :: rest) h

/-- A nonempty embedding list is truthy. -/
theorem isEmpty_false_of_ne_nil {α : Type} {l : List α} (h : l ≠ []) :
    l.isEmpty = false := by
  cases l with
  | nil => exact absurd rfl h
  | cons a t => rfl

/-- When the embedding step yields a truthy (non-`None`, nonempty) vector,
the handler runs retrieval then generation on exactly that vector. -/
theorem handleQuery_eq (env : Env) (query : String) (emb : List Rat)
    (hq : get_query_embedding env.embedder query = Option.some emb)
    (hne : emb ≠ []) :
    handleQuery env query =
      (get_llm_answer env.llm query (find_similar_chunks env.store emb),
        [PipelineCall.searchCall emb,
          PipelineCall.generateCall query (find_similar_chunks env.store emb)]) := by
  unfold handleQuery
  rw [hq]
  show (if emb.isEmpty then _ else _) = _
  rw [if_neg (by rw [isEmpty_false_of_ne_nil hne]; exact Bool.false_ne_true)]

/-- Context fragments distribute over list append. -/
theorem ctxOf_append : ∀ l1 l2 : List PyVal, ctxOf (l1 ++ l2) = ctxOf l1 ++ ctxOf l2
  | [], l2 => by simp [ctxOf]
  | c :: rest, l2 => by
    show contextPiece c ++ ctxOf (rest ++ l2) = contextPiece c ++ ctxOf rest ++ ctxOf l2
    rw [ctxOf_append rest l2, String.append_assoc]

/-- Source labels distribute over list append. -/
theorem srcsOf_append : ∀ l1 l2 : List PyVal, srcsOf (l1 ++ l2) = srcsOf l1 ++ srcsOf l2
  | [], l2 => by simp [srcsOf]
  | c :: rest, l2 => by
    show (extractSource c).toList ++ srcsOf (rest ++ l2)
      = (extractSource c).toList ++ srcsOf rest ++ srcsOf l2
    rw [srcsOf_append rest l2, List.append_assoc]

/-- Assembly of a list with a distinguished chunk in the middle. -/
theorem assemble_middle (pre post : List PyVal) (c : PyVal)
    (hpre : ∀ x ∈ pre, hasContent x = true)
    (hpost : ∀ x ∈ post, hasContent x = true)
    (hcc : hasContent c = true) :
    assemble (pre ++ c :: post) =
      Except.ok (ctxOf pre ++ contextPiece c ++ ctxOf post,
        srcsOf pre ++ (extractSource c).toList ++ srcsOf post) := by
  have hall : ∀ x ∈ pre ++ c :: post, hasContent x = true := by
    intro x hx
    rcases List.mem_append.mp hx with hx1 | hx2
    · exact hpre x hx1
    · rcases List.mem_cons.mp hx2 with hx3 | hx4
      · rw [hx3]; exact hcc
      · exact hpost x hx4
  rw [assemble_eq _ hall, ctxOf_append, srcsOf_append]
  simp only [ctxOf, srcsOf, String.append_assoc, List.append_assoc]

/-- A dict chunk with a `content` entry passes the subscript. -/
theorem hasContent_dict (es : List (String × PyVal)) (cv : PyVal)
    (hc : lookupEntries es ("content") = Option.some cv) :
    hasContent (PyVal.dict es) = true := by
  simp [hasContent, pySubscript, hc]

/-- The content fragment of a dict chunk with a `content` entry. -/
theorem contextPiece_dict (es : List (String × PyVal)) (cv : PyVal)
    (hc : lookupEntries es ("content") = Option.some cv) :
    contextPiece (PyVal.dict es) = "\n---\n" ++ pyStr cv ++ "\n---\n" := by
  simp [contextPiece, chunkContent, pySubscript, hc]

/-- A chunk whose metadata holds a truthy `Ticker` string contributes the
label built from the two `get` calls with `"N/A"` defaults. -/
theorem extractSource_with_ticker (es ms : List (String × PyVal)) (tick : String)
    (hm : lookupEntries es ("metadata") = Option.some (PyVal.dict ms))
    (ht : lookupEntries ms ("Ticker") = Option.some (PyVal.str tick))
    (hne : tick ≠ "") :
    extractSource (PyVal.dict es) =
      Option.some (tick ++ " ("
        ++ pyStr ((lookupEntries ms ("Company")).getD (PyVal.str ("N/A"))) ++ ")") := by
  have hms : ms ≠ [] := by
    intro hnil
    rw [hnil] at ht
    exact absurd ht (by simp [lookupEntries])
  have htr : pyTruthy (PyVal.dict ms) = true := by
    simp [pyTruthy, isEmpty_false_of_ne_nil hms]
  have htk : pyTruthy (PyVal.str tick) = true := by
    have hie : tick.isEmpty = false := by
      cases hie2 : tick.isEmpty with
      | false => rfl
      | true => exact absurd ((String.isEmpty_iff tick).mp hie2) hne
    simp [pyTruthy, hie]
  unfold extractSource trySource
  simp only [pyGet, hm, htr, if_true, ht, htk]
  cases hcomp : lookupEntries ms ("Company") with
  | some cv => simp [hcomp, pyStr]
  | none => simp [hcomp, pyStr]

/-- A chunk whose metadata dict has no `Ticker` entry contributes no
label. -/
theorem extractSource_no_ticker (es ms : List (String × PyVal))
    (hm : lookupEntries es ("metadata") = Option.some (PyVal.dict ms))
    (ht : lookupEntries ms ("Ticker") = Option.none) :
    extractSource (PyVal.dict es) = Option.none := by
  unfold extractSource trySource
  simp only [pyGet, hm]
  cases hms : ms.isEmpty with
  | true => simp [pyTruthy, hms]
  | false => simp [pyTruthy, hms, ht]

/-- A chunk whose metadata is present but not a mapping contributes no
label: a falsy value is skipped and a truthy one raises inside the
guarded region, which the `except` absorbs. -/
theorem extractSource_malformed (es : List (String × PyVal)) (mv : PyVal)
    (hm : lookupEntries es ("metadata") = Option.some mv)
    (hbad : mv.isDict = false) :
    extractSource (PyVal.dict es) = Option.none := by
  unfold extractSource trySource
  simp only [pyGet, hm]
  cases htr : pyTruthy mv with
  | false => simp [htr]
  | true =>
    cases mv with
    | dict es2 => exact absurd hbad (by simp [PyVal.isDict])
    | str s => simp [htr]
    | int n => simp [htr]
    | bool b => simp [htr]
    | none => simp [htr]

/-- A list containing a chunk that fails the `content` subscript makes the
assembly loop raise. -/
theorem assembleChunks_fails : ∀ chunks : List PyVal,
    (∃ c ∈ chunks, hasContent c = false) →
    ∃ e : PyErr, assembleChunks chunks = Except.error e
  | [], h => absurd h (by simp)
  | x :: rest, h => by
    cases hsub : pySubscript x ("content") with
    | error e =>
      refine ⟨e, ?_⟩
      unfold assembleChunks
      rw [hsub]
    | ok v =>
      have hx : hasContent x = true := by simp [hasContent, hsub]
      have hrest : ∃ c ∈ rest, hasContent c = false := by
        rcases h with ⟨c, hmem, hcf⟩
        rcases List.mem_cons.mp hmem with h1 | h2
        · rw [h1] at hcf; rw [hx] at hcf; exact absurd hcf (by simp)
        · exact ⟨c, h2, hcf⟩
      rcases assembleChunks_fails rest hrest with ⟨e, he⟩
      refine ⟨e, ?_⟩
      unfold assembleChunks
      rw [hsub, he]

/-- Specification helper: the grounding-instruction text of the system
prompt, up to the interpolated context. -/
def groundingInstruction : String :=
  "\n    Du bist ein Assistent für Finanzanalysen, spezialisiert auf den Nasdaq-100.\n    Antworte auf die Frage des Benutzers basierend *ausschließlich* auf dem folgenden Kontext.\n    Wenn der Kontext die Antwort nicht enthält, sage: \"Ich habe dazu keine Informationen in meiner Datenbank.\"\n    Sei präzise und zitiere Fakten, wenn möglich.\n\n    Kontext:\n    "

/-- C1: for every query, if `get_query_embedding` returns a failure
(`None`), the handler's final answer is the fixed failure string
"Fehler: Konnte die Anfrage nicht verarbeiten." and neither
`find_similar_chunks` nor `get_llm_answer` is invoked (the call trace is
empty). -/
theorem embedding_failure_short_circuits (env : Env) (query : String)
    (h : get_query_embedding env.embedder query = Option.none) :
    handleQuery env query
      = (Except.ok ("Fehler: Konnte die Anfrage nicht verarbeiten."), []) := by
  unfold handleQuery
  rw [h]

/-- Witness for C1: a concrete environment whose embedding provider
raises. -/
theorem embedding_failure_short_circuits_witness :
    get_query_embedding (fun _ => Option.none) ("Wie ist das Wetter?") = Option.none ∧
    handleQuery
        ⟨fun _ => Option.none, fun _ => Option.some [], fun _ => Option.some ("Antwort")⟩
        ("Wie ist das Wetter?")
      = (Except.ok ("Fehler: Konnte die Anfrage nicht verarbeiten."), []) :=
  ⟨rfl, embedding_failure_short_circuits
    ⟨fun _ => Option.none, fun _ => Option.some [], fun _ => Option.some ("Antwort")⟩
    ("Wie ist das Wetter?") rfl⟩

/-- C2: with a truthy embedding, the handler passes to `get_llm_answer`
exactly the list `find_similar_chunks` returned (same list, hence same
elements, count and order); `find_similar_chunks` returns a successful
store response verbatim (no re-filtering or re-sorting); and it consults
the store only at threshold `0.4` and limit `5`, passed unmodified (its
result depends on the store only through that one request). -/
theorem chunks_passed_verbatim (env : Env) (query : String) (emb : List Rat)
    (hq : get_query_embedding env.embedder query = Option.some emb)
    (hne : emb ≠ []) :
    (handleQuery env query).2
      = [PipelineCall.searchCall emb,
          PipelineCall.generateCall query (find_similar_chunks env.store emb)] ∧
    (∀ l : List PyVal, env.store ⟨emb, 0.4, 5⟩ = Option.some l →
      find_similar_chunks env.store emb = l) ∧
    (∀ store2 : RpcParams → Option (List PyVal),
      store2 ⟨emb, 0.4, 5⟩ = env.store ⟨emb, 0.4, 5⟩ →
      find_similar_chunks store2 emb = find_similar_chunks env.store emb) := by
  refine ⟨?_, ?_, ?_⟩
  · rw [handleQuery_eq env query emb hq hne]
  · intro l hl
    unfold find_similar_chunks
    rw [hl]
  · intro store2 h2
    unfold find_similar_chunks
    rw [h2]

/-- Witness for C2: a concrete environment with a one-chunk store. -/
theorem chunks_passed_verbatim_witness :
    get_query_embedding (fun _ => Option.some [[(1 : Rat)]]) ("Frage")
      = Option.some [(1 : Rat)] ∧
    (handleQuery
        ⟨fun _ => Option.some [[(1 : Rat)]],
          fun _ => Option.some [PyVal.dict [(("content"), PyVal.str ("Text"))]],
          fun _ => Option.some ("Antwort")⟩ ("Frage")).2
      = [PipelineCall.searchCall [(1 : Rat)],
          PipelineCall.generateCall ("Frage")
            (find_similar_chunks
              (fun _ => Option.some [PyVal.dict [(("content"), PyVal.str ("Text"))]])
              [(1 : Rat)])] :=
  ⟨rfl,
    (chunks_passed_verbatim
      ⟨fun _ => Option.some [[(1 : Rat)]],
        fun _ => Option.some [PyVal.dict [(("content"), PyVal.str ("Text"))]],
        fun _ => Option.some ("Antwort")⟩ ("Frage") [(1 : Rat)] rfl
      (List.cons_ne_nil _ _)).1⟩

/-- C6: when the store call raises, `find_similar_chunks` returns the
empty list instead of propagating; the pipeline still runs generation
(the trace records a `generateCall` with the empty chunk list), and the
whole handler output is identical to that of an environment whose store
legitimately returns zero matches. -/
theorem store_failure_indistinguishable (env1 env2 : Env) (query : String) (emb : List Rat)
    (he : env1.embedder = env2.embedder) (hl : env1.llm = env2.llm)
    (h1 : env1.store ⟨emb, 0.4, 5⟩ = Option.none)
    (h2 : env2.store ⟨emb, 0.4, 5⟩ = Option.some [])
    (hq : get_query_embedding env1.embedder query = Option.some emb)
    (hne : emb ≠ []) :
    find_similar_chunks env1.store emb = [] ∧
    handleQuery env1 query = handleQuery env2 query ∧
    (handleQuery env1 query).2
      = [PipelineCall.searchCall emb, PipelineCall.generateCall query []] := by
  have hf1 : find_similar_chunks env1.store emb = [] := by
    unfold find_similar_chunks
    rw [h1]
  have hf2 : find_similar_chunks env2.store emb = [] := by
    unfold find_similar_chunks
    rw [h2]
  have hq2 : get_query_embedding env2.embedder query = Option.some emb := by
    rw [← he]
    exact hq
  refine ⟨hf1, ?_, ?_⟩
  · rw [handleQuery_eq env1 query emb hq hne, handleQuery_eq env2 query emb hq2 hne,
      hf1, hf2, hl]
  · rw [handleQuery_eq env1 query emb hq hne, hf1]

/-- Witness for C6: a failing store next to an empty-result store. -/
theorem store_failure_indistinguishable_witness :
    find_similar_chunks (fun _ => Option.none) [(1 : Rat)] = [] ∧
    handleQuery
        ⟨fun _ => Option.some [[(1 : Rat)]], fun _ => Option.none,
          fun _ => Option.some ("Antwort")⟩ ("Frage")
      = handleQuery
          ⟨fun _ => Option.some [[(1 : Rat)]], fun _ => Option.some [],
            fun _ => Option.some ("Antwort")⟩ ("Frage") :=
  ⟨(store_failure_indistinguishable
      ⟨fun _ => Option.some [[(1 : Rat)]], fun _ => Option.none,
        fun _ => Option.some ("Antwort")⟩
      ⟨fun _ => Option.some [[(1 : Rat)]], fun _ => Option.some [],
        fun _ => Option.some ("Antwort")⟩
      ("Frage") [(1 : Rat)] rfl rfl rfl rfl rfl (List.cons_ne_nil _ _)).1,
    (store_failure_indistinguishable
      ⟨fun _ => Option.some [[(1 : Rat)]], fun _ => Option.none,
        fun _ => Option.some ("Antwort")⟩
      ⟨fun _ => Option.some [[(1 : Rat)]], fun _ => Option.some [],
        fun _ => Option.some ("Antwort")⟩
      ("Frage") [(1 : Rat)] rfl rfl rfl rfl rfl (List.cons_ne_nil _ _)).2.1⟩

/-- C7: if the chat-model invocation raises (the assembly itself having
succeeded, so the invocation is reached), `get_llm_answer` returns the
fixed user-facing error string instead of raising. -/
theorem llm_error_fixed_message (llm : ChatRequest → Option String) (query : String)
    (chunks : List PyVal) (ctx : String) (srcs : List String)
    (ha : assemble chunks = Except.ok (ctx, srcs))
    (hfail : llm (llmRequest query ctx) = Option.none) :
    get_llm_answer llm query chunks
      = Except.ok ("Es gab einen Fehler bei der Generierung der Antwort.") := by
  unfold get_llm_answer
  simp only [ha, hfail]

/-- Witness for C7: a concrete always-raising chat model. -/
theorem llm_error_fixed_message_witness :
    assemble ([PyVal.dict [(("content"), PyVal.str ("Text"))]])
      = Except.ok ("\n---\nText\n---\n", []) ∧
    get_llm_answer (fun _ => Option.none) ("Frage")
        [PyVal.dict [(("content"), PyVal.str ("Text"))]]
      = Except.ok ("Es gab einen Fehler bei der Generierung der Antwort.") :=
  ⟨rfl, llm_error_fixed_message (fun _ => Option.none) ("Frage")
    [PyVal.dict [(("content"), PyVal.str ("Text"))]] ("\n---\nText\n---\n") [] rfl rfl⟩

/-- C8: the chat-model invocation of `get_llm_answer` goes through a
single request with temperature `0`, the configured model, and exactly
two messages — a system message holding the grounding prompt (which
carries the assembled context verbatim whenever it is nonempty) and a
user message holding the raw query; the function depends on the model
oracle only through that request. -/
theorem llm_invocation_shape (query : String) (chunks : List PyVal) (ctx : String)
    (srcs : List String) (ha : assemble chunks = Except.ok (ctx, srcs)) :
    ∃ req : ChatRequest,
      req.temperature = 0 ∧
      req.model = LLM_MODEL ∧
      req.messages = [⟨"system", systemPrompt ctx⟩, ⟨"user", query⟩] ∧
      (ctx ≠ "" → systemPrompt ctx = groundingInstruction ++ ctx ++ "\n    ") ∧
      (∀ llm1 llm2 : ChatRequest → Option String, llm1 req = llm2 req →
        get_llm_answer llm1 query chunks = get_llm_answer llm2 query chunks) := by
  refine ⟨llmRequest query ctx, rfl, rfl, rfl, ?_, ?_⟩
  · intro hctx
    have hie : ctx.isEmpty = false := by
      cases hie2 : ctx.isEmpty with
      | false => rfl
      | true => exact absurd ((String.isEmpty_iff ctx).mp hie2) hctx
    unfold systemPrompt groundingInstruction
    rw [hie]
    rfl
  · intro llm1 llm2 hagree
    unfold get_llm_answer
    simp only [ha, hagree]

/-- Witness for C8: the request shape at a concrete one-chunk input. -/
theorem llm_invocation_shape_witness :
    ∃ req : ChatRequest,
      req.temperature = 0 ∧
      req.model = LLM_MODEL ∧
      req.messages = [⟨"system", systemPrompt ("\n---\nText\n---\n")⟩, ⟨"user", "Frage"⟩] ∧
      (("\n---\nText\n---\n" : String) ≠ "" →
        systemPrompt ("\n---\nText\n---\n")
          = groundingInstruction ++ "\n---\nText\n---\n" ++ "\n    ") ∧
      (∀ llm1 llm2 : ChatRequest → Option String, llm1 req = llm2 req →
        get_llm_answer llm1 ("Frage") [PyVal.dict [(("content"), PyVal.str ("Text"))]]
          = get_llm_answer llm2 ("Frage") [PyVal.dict [(("content"), PyVal.str ("Text"))]]) :=
  llm_invocation_shape ("Frage") [PyVal.dict [(("content"), PyVal.str ("Text"))]]
    ("\n---\nText\n---\n") [] rfl

/-- C3: for every chunk sequence (whose `content` accesses succeed), the
assembled context is the concatenation, in input order, of each chunk
content wrapped with a delimiter line before and after; the empty
sequence yields the empty context, in which case the system message of
the request sent to the chat model carries the placeholder
"Kein Kontext gefunden." instead of an empty context, and the generation
depends on the model oracle only through that request. -/
theorem context_text_concatenation (query : String) (chunks : List PyVal)
    (h : ∀ c ∈ chunks, hasContent c = true) :
    assemble chunks = Except.ok (ctxOf chunks, srcsOf chunks) ∧
    (chunks = [] →
      assemble chunks = Except.ok ("", []) ∧
      (llmRequest query "").messages
        = [⟨"system", groundingInstruction ++ "Kein Kontext gefunden." ++ "\n    "⟩,
            ⟨"user", query⟩] ∧
      (∀ llm1 llm2 : ChatRequest → Option String,
        llm1 (llmRequest query "") = llm2 (llmRequest query "") →
        get_llm_answer llm1 query [] = get_llm_answer llm2 query [])) := by
  refine ⟨assemble_eq chunks h, ?_⟩
  intro hnil
  subst hnil
  refine ⟨rfl, rfl, ?_⟩
  intro llm1 llm2 hagree
  have h0 : assemble ([] : List PyVal) = Except.ok ("", []) := rfl
  unfold get_llm_answer
  simp only [h0, hagree]

/-- Witness for C3: the empty chunk list. -/
theorem context_text_concatenation_witness :
    assemble ([] : List PyVal) = Except.ok (ctxOf [], srcsOf []) ∧
    (llmRequest ("Frage") "").messages
      = [⟨"system", groundingInstruction ++ "Kein Kontext gefunden." ++ "\n    "⟩,
          ⟨"user", "Frage"⟩] :=
  ⟨(context_text_concatenation ("Frage") [] (by simp)).1,
    ((context_text_concatenation ("Frage") [] (by simp)).2 rfl).2.1⟩

/-- C4: a chunk whose metadata dict holds a non-empty `Ticker` string
contributes exactly one label `"{ticker} ({company})"` — with the
`Company` lookup defaulting to `"N/A"` when the field is missing — to
the collected sources, while a chunk whose metadata has no `Ticker`
entry contributes zero labels; in both cases the chunk's content still
appears in the assembled context at its position. -/
theorem source_label_per_chunk (pre post : List PyVal) (es ms : List (String × PyVal))
    (cv : PyVal)
    (hpre : ∀ x ∈ pre, hasContent x = true)
    (hpost : ∀ x ∈ post, hasContent x = true)
    (hc : lookupEntries es ("content") = Option.some cv)
    (hm : lookupEntries es ("metadata") = Option.some (PyVal.dict ms)) :
    (∀ tick : String,
      lookupEntries ms ("Ticker") = Option.some (PyVal.str tick) → tick ≠ "" →
      extractSource (PyVal.dict es)
        = Option.some (tick ++ " ("
            ++ pyStr ((lookupEntries ms ("Company")).getD (PyVal.str ("N/A"))) ++ ")") ∧
      assemble (pre ++ PyVal.dict es :: post)
        = Except.ok (ctxOf pre ++ ("\n---\n" ++ pyStr cv ++ "\n---\n") ++ ctxOf post,
            srcsOf pre ++ [tick ++ " ("
              ++ pyStr ((lookupEntries ms ("Company")).getD (PyVal.str ("N/A"))) ++ ")"]
              ++ srcsOf post)) ∧
    (lookupEntries ms ("Ticker") = Option.none →
      extractSource (PyVal.dict es) = Option.none ∧
      assemble (pre ++ PyVal.dict es :: post)
        = Except.ok (ctxOf pre ++ ("\n---\n" ++ pyStr cv ++ "\n---\n") ++ ctxOf post,
            srcsOf pre ++ srcsOf post)) := by
  have hcc := hasContent_dict es cv hc
  have hpiece := contextPiece_dict es cv hc
  have hmid := assemble_middle pre post (PyVal.dict es) hpre hpost hcc
  constructor
  · intro tick ht htne
    have hex := extractSource_with_ticker es ms tick hm ht htne
    refine ⟨hex, ?_⟩
    rw [hmid, hpiece, hex]
    rfl
  · intro ht
    have hex := extractSource_no_ticker es ms hm ht
    refine ⟨hex, ?_⟩
    rw [hmid, hpiece, hex]
    simp

/-- Witness for C4: the Apple example chunk from the specification. -/
theorem source_label_per_chunk_witness :
    extractSource (PyVal.dict
        [(("content"), PyVal.str ("Apple focuses on hardware-software integration.")),
          (("metadata"), PyVal.dict
            [(("Ticker"), PyVal.str ("AAPL")), (("Company"), PyVal.str ("Apple Inc."))])])
      = Option.some ("AAPL (Apple Inc.)") ∧
    assemble [PyVal.dict
        [(("content"), PyVal.str ("Apple focuses on hardware-software integration.")),
          (("metadata"), PyVal.dict
            [(("Ticker"), PyVal.str ("AAPL")), (("Company"), PyVal.str ("Apple Inc."))])]]
      = Except.ok ("\n---\nApple focuses on hardware-software integration.\n---\n",
          ["AAPL (Apple Inc.)"]) := by
  have h := (source_label_per_chunk [] []
    [(("content"), PyVal.str ("Apple focuses on hardware-software integration.")),
      (("metadata"), PyVal.dict
        [(("Ticker"), PyVal.str ("AAPL")), (("Company"), PyVal.str ("Apple Inc."))])]
    [(("Ticker"), PyVal.str ("AAPL")), (("Company"), PyVal.str ("Apple Inc."))]
    (PyVal.str ("Apple focuses on hardware-software integration."))
    (by simp) (by simp) rfl rfl).1 ("AAPL") rfl (by decide)
  exact ⟨h.1, h.2⟩

/-- C5: on a successful model call, `get_llm_answer` appends a Quellen
section if and only if at least one source label was collected; the
listed labels are the deduplicated, lexicographically sorted labels,
separated from the answer body by a blank line; assembling zero chunks
collects zero labels, so the raw answer is returned unmodified. -/
theorem sources_section_iff (llm : ChatRequest → Option String) (query raw : String)
    (chunks : List PyVal) (ctx : String) (srcs : List String)
    (ha : assemble chunks = Except.ok (ctx, srcs))
    (hllm : llm (llmRequest query ctx) = Option.some raw) :
    (srcs = [] → get_llm_answer llm query chunks = Except.ok raw) ∧
    (srcs ≠ [] → get_llm_answer llm query chunks
      = Except.ok (raw ++ "\n\n**Quellen:**\n- "
          ++ String.intercalate ("\n- ") (unique_sources srcs))) ∧
    (unique_sources srcs).Sorted (· ≤ ·) ∧
    (unique_sources srcs).Nodup ∧
    (∀ s : String, s ∈ unique_sources srcs ↔ s ∈ srcs) ∧
    (chunks = [] → srcs = []) := by
  refine ⟨?_, ?_, unique_sources_sorted srcs, unique_sources_nodup srcs,
    fun s => unique_sources_mem srcs s, ?_⟩
  · intro hnil
    unfold get_llm_answer
    simp [ha, hllm, hnil]
  · intro hne
    unfold get_llm_answer
    simp [ha, hllm, isEmpty_false_of_ne_nil hne]
  · intro hnil
    subst hnil
    have h0 : assemble ([] : List PyVal) = Except.ok ("", []) := rfl
    have h2 := Except.ok.inj (h0.symm.trans ha)
    exact (congrArg Prod.snd h2).symm

/-- Witness for C5: tickers MSFT, AAPL, MSFT yield the two labels sorted
with AAPL first and each appearing once. -/
theorem sources_section_iff_witness :
    (["MSFT (N/A)", "AAPL (N/A)", "MSFT (N/A)"] : List String) ≠ [] ∧
    get_llm_answer (fun _ => Option.some ("Antwort")) ("Frage")
        [PyVal.dict [(("content"), PyVal.str ("a")),
            (("metadata"), PyVal.dict [(("Ticker"), PyVal.str ("MSFT"))])],
          PyVal.dict [(("content"), PyVal.str ("b")),
            (("metadata"), PyVal.dict [(("Ticker"), PyVal.str ("AAPL"))])],
          PyVal.dict [(("content"), PyVal.str ("c")),
            (("metadata"), PyVal.dict [(("Ticker"), PyVal.str ("MSFT"))])]]
      = Except.ok ("Antwort" ++ "\n\n**Quellen:**\n- "
          ++ String.intercalate ("\n- ")
            (unique_sources ["MSFT (N/A)", "AAPL (N/A)", "MSFT (N/A)"])) ∧
    unique_sources ["MSFT (N/A)", "AAPL (N/A)", "MSFT (N/A)"]
      = ["AAPL (N/A)", "MSFT (N/A)"] :=
  ⟨List.cons_ne_nil _ _,
    (sources_section_iff (fun _ => Option.some ("Antwort")) ("Frage") ("Antwort")
      [PyVal.dict [(("content"), PyVal.str ("a")),
          (("metadata"), PyVal.dict [(("Ticker"), PyVal.str ("MSFT"))])],
        PyVal.dict [(("content"), PyVal.str ("b")),
          (("metadata"), PyVal.dict [(("Ticker"), PyVal.str ("AAPL"))])],
        PyVal.dict [(("content"), PyVal.str ("c")),
          (("metadata"), PyVal.dict [(("Ticker"), PyVal.str ("MSFT"))])]]
      ("\n---\na\n---\n\n---\nb\n---\n\n---\nc\n---\n")
      ["MSFT (N/A)", "AAPL (N/A)", "MSFT (N/A)"] rfl rfl).2.1
      (List.cons_ne_nil _ _),
    by decide⟩

/-- C9: a chunk whose `content` access succeeds but whose metadata is
present and not a mapping does not abort assembly: a falsy such value is
skipped by the truthiness test and a truthy one raises inside the
`try` block, which the `except` absorbs — either way the chunk
contributes no source label and assembly continues with the remaining
chunks. -/
theorem malformed_metadata_skipped (pre post : List PyVal) (es : List (String × PyVal))
    (cv mv : PyVal)
    (hpre : ∀ x ∈ pre, hasContent x = true)
    (hpost : ∀ x ∈ post, hasContent x = true)
    (hc : lookupEntries es ("content") = Option.some cv)
    (hm : lookupEntries es ("metadata") = Option.some mv)
    (hbad : mv.isDict = false) :
    extractSource (PyVal.dict es) = Option.none ∧
    assemble (pre ++ PyVal.dict es :: post)
      = Except.ok (ctxOf pre ++ ("\n---\n" ++ pyStr cv ++ "\n---\n") ++ ctxOf post,
          srcsOf pre ++ srcsOf post) := by
  have hex := extractSource_malformed es mv hm hbad
  have hcc := hasContent_dict es cv hc
  refine ⟨hex, ?_⟩
  rw [assemble_middle pre post (PyVal.dict es) hpre hpost hcc,
    contextPiece_dict es cv hc, hex]
  simp

/-- Witness for C9: a chunk whose metadata is a (truthy) string, between
two well-formed chunks. -/
theorem malformed_metadata_skipped_witness :
    extractSource (PyVal.dict
        [(("content"), PyVal.str ("Text")), (("metadata"), PyVal.str ("oops"))])
      = Option.none ∧
    assemble [PyVal.dict [(("content"), PyVal.str ("a"))],
        PyVal.dict [(("content"), PyVal.str ("Text")), (("metadata"), PyVal.str ("oops"))],
        PyVal.dict [(("content"), PyVal.str ("b"))]]
      = Except.ok ("\n---\na\n---\n\n---\nText\n---\n\n---\nb\n---\n", []) := by
  have h := malformed_metadata_skipped
    [PyVal.dict [(("content"), PyVal.str ("a"))]]
    [PyVal.dict [(("content"), PyVal.str ("b"))]]
    [(("content"), PyVal.str ("Text")), (("metadata"), PyVal.str ("oops"))]
    (PyVal.str ("Text")) (PyVal.str ("oops"))
    (by intro x hx; rw [List.mem_singleton.mp hx]; rfl)
    (by intro x hx; rw [List.mem_singleton.mp hx]; rfl)
    rfl rfl rfl
  exact ⟨h.1, h.2⟩

/-- C10: the malformed-record tolerance covers only the metadata field —
a chunk list containing a record on which the `chunk['content']`
subscript fails (no `content` key, or not a mapping) makes the assembly
loop raise, and `get_llm_answer` propagates that exception instead of
skipping the chunk, aborting the whole generation. -/
theorem missing_content_aborts (llm : ChatRequest → Option String) (query : String)
    (chunks : List PyVal) (hbad : ∃ c ∈ chunks, hasContent c = false) :
    ∃ e : PyErr, assembleChunks chunks = Except.error e ∧
      get_llm_answer llm query chunks = Except.error e := by
  rcases assembleChunks_fails chunks hbad with ⟨e, he⟩
  have hne : chunks ≠ [] := by
    intro hnil
    subst hnil
    rcases hbad with ⟨c, hmem, _⟩
    exact absurd hmem (by simp)
  refine ⟨e, he, ?_⟩
  unfold get_llm_answer assemble
  rw [if_neg (by rw [isEmpty_false_of_ne_nil hne]; exact Bool.false_ne_true), he]

/-- Witness for C10: a single chunk with metadata but no `content` key. -/
theorem missing_content_aborts_witness :
    ∃ e : PyErr,
      assembleChunks [PyVal.dict [(("metadata"), PyVal.dict [])]] = Except.error e ∧
      get_llm_answer (fun _ => Option.some ("Antwort")) ("Frage")
          [PyVal.dict [(("metadata"), PyVal.dict [])]]
        = Except.error e :=
  missing_content_aborts (fun _ => Option.some ("Antwort")) ("Frage")
    [PyVal.dict [(("metadata"), PyVal.dict [])]]
    ⟨PyVal.dict [(("metadata"), PyVal.dict [])], List.mem_cons_self _ _, rfl⟩
